import Mathlib

/-!
Verification of the Portable JDK build toolchain (Node.js sources) against its
natural-language specification.

The development shallowly embeds the decision logic of the four scripts:

* `analyze-jar.js`   — per-JAR module analysis and combination (`analyzeJarMain`);
* `download-jdks.js` — download/extract pipeline with caching (`downloadFileRun`,
  `downloadDecision`, `downloadJdksMain`);
* `build-jre-all-platforms.js` — module-source resolution performed at module load
  (`resolveModules`), JDK version auto-detection (`detectAvailableJDK`), the jlink
  invocation (`buildJre`) and the all-platforms batch (`batchResults` / `batchExit`);
* `create-portable.js` — platform list of the package assembler (`portablePlatforms`)
  and the same batch shape.

External effects (the jdeps and jlink subprocesses, HTTP responses, the filesystem)
are passed in explicitly as oracle values, so every function here is executable.
JavaScript string primitives used by the scripts are re-implemented over `List Char`
so that concrete runs reduce inside the kernel.
-/

/-! ## JavaScript string primitives

`charsLe` is lexicographic comparison of code points, the order used by the
argument-less `Array.prototype.sort()` on the (ASCII) module-name strings. -/

def charsLe : List Char → List Char → Bool
  | [], _ => true
  | _ :: _, [] => false
  | a :: as, b :: bs =>
    if a.toNat < b.toNat then true
    else if b.toNat < a.toNat then false
    else charsLe as bs

/-- String comparison used by `Array.prototype.sort()` (lexicographic on code units). -/
def strLe (a b : String) : Bool := charsLe a.data b.data

/-- Insert a string into a sorted list (stable insertion). -/
def insertLe (x : String) : List String → List String
  | [] => [x]
  | y :: ys => if strLe x y then x :: y :: ys else y :: insertLe x ys

/-- `Array.prototype.sort()` with no comparator: lexicographic string sort. -/
def sortStrings : List String → List String
  | [] => []
  | x :: xs => insertLe x (sortStrings xs)

/-- `Set.prototype.add`: append only if not already present (JS `Set` keeps
insertion order; we model it as a duplicate-free list). -/
def jsSetAdd (s : List String) (x : String) : List String :=
  if x ∈ s then s else s ++ [x]

/-- `String.prototype.endsWith`. -/
def jsEndsWith (s suf : String) : Bool :=
  suf.data == s.data.drop (s.data.length - suf.data.length)

/-- `String.prototype.startsWith`. -/
def jsStartsWith (s pre : String) : Bool :=
  pre.data == s.data.take pre.data.length

/-- `String.prototype.trim` (strip leading and trailing whitespace). -/
def jsTrim (s : String) : String :=
  String.mk (((s.data.dropWhile Char.isWhitespace).reverse.dropWhile Char.isWhitespace).reverse)

/-- `Array.prototype.join(sep)`. -/
def jsJoin (sep : String) : List String → String
  | [] => ""
  | [x] => x
  | x :: y :: ys => x ++ sep ++ jsJoin sep (y :: ys)

/-- Numeric value of a digit string, as computed by a successful `parseInt` run
(the scripts only apply it to `\d+` regex captures). -/
def parseIntDigits (s : String) : Nat :=
  s.data.foldl (fun n c => 10 * n + (c.toNat - 48)) 0

/-- `path.basename(p, path.extname(p))`: strip the directory part and the final
extension (a dot at position 0 of the basename is not an extension separator). -/
def fileStem (p : String) : String :=
  let b := (p.data.reverse.takeWhile (fun c => c ≠ '/' ∧ c ≠ '\\')).reverse
  let ext := b.reverse.takeWhile (· ≠ '.')
  if ext.length + 1 < b.length ∧ '.' ∈ b then
    String.mk (b.take (b.length - (ext.length + 1)))
  else
    String.mk b

/-! ## Lemmas about the string sort -/

theorem mem_insertLe (x y : String) (l : List String) :
    y ∈ insertLe x l ↔ y = x ∨ y ∈ l := by
  induction l with
  | nil => simp [insertLe]
  | cons z zs ih =>
    by_cases h : strLe x z = true
    · simp [insertLe, h]
    · simp only [insertLe, h, if_neg]
      simp [ih]
      tauto

theorem perm_insertLe (x : String) (l : List String) :
    List.Perm (insertLe x l) (x :: l) := by
  induction l with
  | nil => simp [insertLe]
  | cons z zs ih =>
    by_cases h : strLe x z = true
    · simp [insertLe, h]
    · simp only [insertLe, h, if_neg, ite_false]
      exact (ih.cons z).trans (List.Perm.swap x z zs)

theorem perm_sortStrings (l : List String) : List.Perm (sortStrings l) l := by
  induction l with
  | nil => simp [sortStrings]
  | cons x xs ih =>
    exact (perm_insertLe x (sortStrings xs)).trans (ih.cons x)

theorem mem_sortStrings (y : String) (l : List String) :
    y ∈ sortStrings l ↔ y ∈ l :=
  (perm_sortStrings l).mem_iff

theorem nodup_sortStrings (l : List String) (h : l.Nodup) :
    (sortStrings l).Nodup :=
  (perm_sortStrings l).nodup_iff.mpr h

theorem charsLe_total (a b : List Char) : charsLe a b = true ∨ charsLe b a = true := by
  induction a generalizing b with
  | nil => left; rfl
  | cons x xs ih =>
    cases b with
    | nil => right; rfl
    | cons y ys =>
      by_cases hxy : x.toNat < y.toNat
      · left; simp [charsLe, hxy]
      · by_cases hyx : y.toNat < x.toNat
        · right; simp [charsLe, hyx, Nat.lt_asymm hyx]
        · rcases ih ys with h | h
          · left; simp [charsLe, hxy, hyx, h]
          · right; simp [charsLe, hxy, hyx, h]

theorem strLe_total (a b : String) : strLe a b = true ∨ strLe b a = true :=
  charsLe_total a.data b.data

theorem charsLe_trans (a b c : List Char) (hab : charsLe a b = true)
    (hbc : charsLe b c = true) : charsLe a c = true := by
  induction a generalizing b c with
  | nil => rfl
  | cons x xs ih =>
    cases b with
    | nil => simp [charsLe] at hab
    | cons y ys =>
      cases c with
      | nil => simp [charsLe] at hbc
      | cons z zs =>
        simp only [charsLe] at hab hbc ⊢
        by_cases hxy : x.toNat < y.toNat
        · by_cases hyz : y.toNat < z.toNat
          · simp [Nat.lt_trans hxy hyz]
          · by_cases hzy : z.toNat < y.toNat
            · simp [hyz, hzy] at hbc
            · have : y.toNat = z.toNat := Nat.le_antisymm (Nat.le_of_not_lt hzy) (Nat.le_of_not_lt hyz)
              simp [this ▸ hxy]
        · by_cases hyx : y.toNat < x.toNat
          · simp [hxy, hyx] at hab
          · have hxyeq : x.toNat = y.toNat := Nat.le_antisymm (Nat.le_of_not_lt hyx) (Nat.le_of_not_lt hxy)
            by_cases hyz : y.toNat < z.toNat
            · simp [hxyeq ▸ hyz]
            · by_cases hzy : z.toNat < y.toNat
              · simp [hyz, hzy] at hbc
              · simp only [hxy, hyx, if_neg, ite_false] at hab
                simp only [hyz, hzy, if_neg, ite_false] at hbc
                have hxz : ¬ x.toNat < z.toNat := by omega
                have hzx : ¬ z.toNat < x.toNat := by omega
                simp [hxz, hzx, ih ys zs hab hbc]

theorem strLe_trans (a b c : String) (hab : strLe a b = true)
    (hbc : strLe b c = true) : strLe a c = true :=
  charsLe_trans a.data b.data c.data hab hbc

/-- `insertLe` preserves sortedness with respect to `strLe`. -/
theorem sorted_insertLe (x : String) (l : List String)
    (h : l.Pairwise (fun a b => strLe a b = true)) :
    (insertLe x l).Pairwise (fun a b => strLe a b = true) := by
  induction l with
  | nil => simp [insertLe]
  | cons z zs ih =>
    rcases List.pairwise_cons.mp h with ⟨hz, hzs⟩
    by_cases hxz : strLe x z = true
    · have he : insertLe x (z :: zs) = x :: z :: zs := by simp [insertLe, hxz]
      rw [he]
      refine List.pairwise_cons.mpr ⟨?_, h⟩
      intro b hb
      rcases List.mem_cons.mp hb with hb | hb
      · rw [hb]; exact hxz
      · exact strLe_trans x z b hxz (hz b hb)
    · have he : insertLe x (z :: zs) = z :: insertLe x zs := by simp [insertLe, hxz]
      rw [he]
      refine List.pairwise_cons.mpr ⟨?_, ih hzs⟩
      intro b hb
      rcases (mem_insertLe x b zs).mp hb with hb | hb
      · rw [hb]
        rcases strLe_total x z with h1 | h1
        · exact absurd h1 hxz
        · exact h1
      · exact hz b hb

theorem sorted_sortStrings (l : List String) :
    (sortStrings l).Pairwise (fun a b => strLe a b = true) := by
  induction l with
  | nil => simp [sortStrings]
  | cons x xs ih => exact sorted_insertLe x (sortStrings xs) ih

/-! ## Dependency analyzer (`analyze-jar.js`)

`analyzeJAR` shells out to jdeps, so a run of `main` is determined by the list of
JAR names together with the value `analyzeJAR` returned for each (`none` models a
thrown subprocess error or unusable output, in which case `analyzeJAR` returns
`null`). -/

/-- One JAR file together with the outcome of `analyzeJAR` on it. -/
structure JarAnalysis where
  jar : String
  result : Option (List String)
deriving DecidableEq, Repr

/-- The success test of `main`: `if (modules && modules.length > 0)`. -/
def jarSuccess (a : JarAnalysis) : Bool :=
  match a.result with
  | some ms => decide (0 < ms.length)
  | none => false

/-- The modules recorded for a JAR in `jarResults` (empty on failure). -/
def jarRecorded (a : JarAnalysis) : List String :=
  match a.result with
  | some ms => if 0 < ms.length then ms else []
  | none => []

/-- `DEFAULT_MODULES` of `analyze-jar.js`, in its defined order. -/
def DEFAULT_MODULES : List String :=
  ["java.base", "java.desktop", "java.xml", "java.logging", "java.naming",
   "java.sql", "java.management", "jdk.unsupported"]

/-- Loop body of `jarFiles.forEach` in `main`: on success every module is added to
the `allModules` set and the JAR is recorded successful; otherwise the JAR is
recorded failed with an empty module list. -/
def analyzeStep (acc : List String × List (String × List String × Bool))
    (a : JarAnalysis) : List String × List (String × List String × Bool) :=
  match a.result with
  | some ms =>
    if 0 < ms.length then (ms.foldl jsSetAdd acc.1, acc.2 ++ [(a.jar, ms, true)])
    else (acc.1, acc.2 ++ [(a.jar, ([] : List String), false)])
  | none => (acc.1, acc.2 ++ [(a.jar, ([] : List String), false)])

/-- Result of one `analyze-jar.js` run. -/
structure AnalyzeOutcome where
  jarResults : List (String × List String × Bool)
  finalModules : List String
  source : String
  outputFile : String
  serialized : String
deriving DecidableEq, Repr

/-- `main` of `analyze-jar.js` (lines 345-473): analyze each JAR when a JDK was
found, union successful results, fall back to `DEFAULT_MODULES` when the union is
empty, and persist the comma-joined list. -/
def analyzeJarMain (jdkFound : Bool) (analyses : List JarAnalysis) : AnalyzeOutcome :=
  let st := if jdkFound then analyses.foldl analyzeStep ([], []) else ([], [])
  let fm := if 0 < st.1.length then (sortStrings st.1, "jdeps")
            else (DEFAULT_MODULES, "default")
  { jarResults := st.2
    finalModules := fm.1
    source := fm.2
    outputFile :=
      if 1 < analyses.length then "combined-modules.txt"
      else ((analyses.head?.map (fun a => fileStem a.jar ++ "-modules.txt")).getD "-modules.txt")
    serialized := jsJoin "," fm.1 }

/-- Deduplicated union of the module sets of the successful analyses. -/
def successfulUnion (analyses : List JarAnalysis) : Finset String :=
  analyses.foldr
    (fun a acc => if jarSuccess a then (jarRecorded a).toFinset ∪ acc else acc) ∅

theorem mem_foldl_jsSetAdd (x : String) (l acc : List String) :
    x ∈ l.foldl jsSetAdd acc ↔ x ∈ acc ∨ x ∈ l := by
  induction l generalizing acc with
  | nil => simp
  | cons y ys ih =>
    rw [List.foldl_cons, ih]
    unfold jsSetAdd
    by_cases hy : y ∈ acc
    · rw [if_pos hy]
      simp only [List.mem_cons]
      constructor
      · rintro (h | h)
        · exact Or.inl h
        · exact Or.inr (Or.inr h)
      · rintro (h | rfl | h)
        · exact Or.inl h
        · exact Or.inl hy
        · exact Or.inr h
    · rw [if_neg hy]
      simp only [List.mem_append, List.mem_singleton, List.mem_cons]
      tauto

theorem nodup_foldl_jsSetAdd (l acc : List String) (h : acc.Nodup) :
    (l.foldl jsSetAdd acc).Nodup := by
  induction l generalizing acc with
  | nil => exact h
  | cons y ys ih =>
    rw [List.foldl_cons]
    refine ih _ ?_
    unfold jsSetAdd
    by_cases hy : y ∈ acc
    · rw [if_pos hy]; exact h
    · rw [if_neg hy]
      simp [List.nodup_append, h, hy]

/-- The first component of `analyzeStep` only grows by the recorded modules of a
successful analysis. -/
theorem analyzeStep_fst (acc : List String × List (String × List String × Bool))
    (a : JarAnalysis) :
    (analyzeStep acc a).1 =
      if jarSuccess a then (jarRecorded a).foldl jsSetAdd acc.1 else acc.1 := by
  unfold analyzeStep jarSuccess jarRecorded
  cases a.result with
  | none => simp
  | some ms =>
    by_cases hms : 0 < ms.length
    · simp [hms]
    · simp [hms]

/-- Membership in the `allModules` accumulator after the `forEach` loop. -/
theorem mem_allModules (x : String) (analyses : List JarAnalysis)
    (acc : List String × List (String × List String × Bool)) :
    x ∈ (analyses.foldl analyzeStep acc).1 ↔
      x ∈ acc.1 ∨ ∃ a ∈ analyses, jarSuccess a = true ∧ x ∈ jarRecorded a := by
  induction analyses generalizing acc with
  | nil => simp
  | cons a as ih =>
    rw [List.foldl_cons, ih, analyzeStep_fst]
    have hsplit : (∃ b ∈ (a :: as), jarSuccess b = true ∧ x ∈ jarRecorded b) ↔
        (jarSuccess a = true ∧ x ∈ jarRecorded a) ∨
          ∃ b ∈ as, jarSuccess b = true ∧ x ∈ jarRecorded b := by
      simp [List.mem_cons, or_and_right, exists_or]
    rw [hsplit]
    by_cases hs : jarSuccess a = true
    · rw [if_pos hs, mem_foldl_jsSetAdd]
      have hsT : (jarSuccess a = true ∧ x ∈ jarRecorded a) ↔ x ∈ jarRecorded a := by
        simp [hs]
      rw [hsT]
      tauto
    · rw [if_neg hs]
      have hsF : ¬ (jarSuccess a = true ∧ x ∈ jarRecorded a) := fun hc => hs hc.1
      tauto

/-- The `allModules` accumulator stays duplicate-free. -/
theorem nodup_allModules (analyses : List JarAnalysis)
    (acc : List String × List (String × List String × Bool)) (h : acc.1.Nodup) :
    (analyses.foldl analyzeStep acc).1.Nodup := by
  induction analyses generalizing acc with
  | nil => exact h
  | cons a as ih =>
    rw [List.foldl_cons]
    refine ih _ ?_
    rw [analyzeStep_fst]
    by_cases hs : jarSuccess a = true
    · rw [if_pos hs]; exact nodup_foldl_jsSetAdd _ _ h
    · rw [if_neg hs]; exact h

/-- The second component of `analyzeStep` appends exactly one record per JAR. -/
theorem analyzeStep_snd (acc : List String × List (String × List String × Bool))
    (a : JarAnalysis) :
    (analyzeStep acc a).2 = acc.2 ++ [(a.jar, jarRecorded a, jarSuccess a)] := by
  unfold analyzeStep jarSuccess jarRecorded
  cases a.result with
  | none => simp
  | some ms =>
    by_cases hms : 0 < ms.length
    · simp [hms]
    · simp [hms]

/-- `jarResults` after the loop: one record per analyzed JAR, in order. -/
theorem jarResults_eq (analyses : List JarAnalysis)
    (acc : List String × List (String × List String × Bool)) :
    (analyses.foldl analyzeStep acc).2 =
      acc.2 ++ analyses.map (fun a => (a.jar, jarRecorded a, jarSuccess a)) := by
  induction analyses generalizing acc with
  | nil => simp
  | cons a as ih =>
    rw [List.foldl_cons, ih, analyzeStep_snd, List.map_cons]
    simp

/-- A successful analysis contributes a nonempty module list. -/
theorem jarSuccess_nonempty (a : JarAnalysis) (h : jarSuccess a = true) :
    0 < (jarRecorded a).length := by
  unfold jarSuccess at h
  unfold jarRecorded
  cases hr : a.result with
  | none => rw [hr] at h; exact absurd h (by simp)
  | some ms =>
    rw [hr] at h
    have hms : 0 < ms.length := by simpa using h
    simp [hms]

theorem mem_successfulUnion (x : String) (analyses : List JarAnalysis) :
    x ∈ successfulUnion analyses ↔
      ∃ a ∈ analyses, jarSuccess a = true ∧ x ∈ jarRecorded a := by
  induction analyses with
  | nil => simp [successfulUnion]
  | cons a as ih =>
    unfold successfulUnion at ih ⊢
    rw [List.foldr_cons]
    by_cases hs : jarSuccess a = true
    · rw [if_pos hs]
      simp only [Finset.mem_union, List.mem_toFinset, ih, List.mem_cons, or_and_right,
        exists_or, exists_eq_left, hs, true_and]
    · rw [if_neg hs]
      rw [ih]
      constructor
      · rintro ⟨b, hb, hsb, hxb⟩
        exact ⟨b, List.mem_cons_of_mem a hb, hsb, hxb⟩
      · rintro ⟨b, hb, hsb, hxb⟩
        rcases List.mem_cons.mp hb with rfl | hb
        · exact absurd hsb hs
        · exact ⟨b, hb, hsb, hxb⟩

theorem allModules_nil_of_all_fail (analyses : List JarAnalysis)
    (acc : List String × List (String × List String × Bool))
    (h : ∀ a ∈ analyses, jarSuccess a = false) :
    (analyses.foldl analyzeStep acc).1 = acc.1 := by
  induction analyses generalizing acc with
  | nil => rfl
  | cons a as ih =>
    rw [List.foldl_cons]
    have ha : jarSuccess a = false := h a (List.mem_cons_self a as)
    rw [ih _ (fun b hb => h b (List.mem_cons_of_mem a hb)), analyzeStep_fst,
      if_neg (by simp [ha])]

/-- Concrete run used by the witnesses: two successful analyses, one failed one. -/
def sampleAnalyses : List JarAnalysis :=
  [{ jar := "X.jar", result := some ["java.base", "java.xml"] },
   { jar := "Y.jar", result := some ["java.base", "java.sql"] },
   { jar := "Z.jar", result := none }]

/-- C1: in a run of the JAR analyzer with at least one successful per-artifact
analysis, the combined module list is exactly the deduplicated union of the
successful analyses (sorted, duplicate-free), the persisted form is the
comma-joined sorted list, and every artifact — failed ones included — gets its
own record in the per-artifact report. -/
theorem combined_moduleSet_is_union_of_successful (analyses : List JarAnalysis)
    (h : ∃ a ∈ analyses, jarSuccess a = true) :
    (analyzeJarMain true analyses).finalModules.toFinset = successfulUnion analyses
    ∧ (analyzeJarMain true analyses).finalModules.Nodup
    ∧ (analyzeJarMain true analyses).finalModules.Pairwise (fun a b => strLe a b = true)
    ∧ (analyzeJarMain true analyses).serialized =
        jsJoin "," (analyzeJarMain true analyses).finalModules
    ∧ (analyzeJarMain true analyses).jarResults =
        analyses.map (fun a => (a.jar, jarRecorded a, jarSuccess a)) := by
  have hne : 0 < ((analyses.foldl analyzeStep ([], [])).1).length := by
    obtain ⟨a, ha, hsa⟩ := h
    obtain ⟨x, hx⟩ := List.exists_mem_of_length_pos (jarSuccess_nonempty a hsa)
    have hx1 : x ∈ (analyses.foldl analyzeStep ([], [])).1 :=
      (mem_allModules x analyses ([], [])).mpr (Or.inr ⟨a, ha, hsa, hx⟩)
    exact List.length_pos.mpr (List.ne_nil_of_mem hx1)
  simp only [analyzeJarMain, if_true, hne, if_pos]
  refine ⟨?_, ?_, ?_, by trivial, ?_⟩
  · ext x
    rw [List.mem_toFinset, mem_sortStrings, mem_allModules, mem_successfulUnion]
    simp
  · exact nodup_sortStrings _ (nodup_allModules analyses ([], []) (by simp))
  · exact sorted_sortStrings _
  · rw [jarResults_eq]
    simp

/-- Witness for C1 at `sampleAnalyses`. -/
theorem combined_moduleSet_is_union_of_successful_witness :
    (analyzeJarMain true sampleAnalyses).finalModules.toFinset = successfulUnion sampleAnalyses
    ∧ (analyzeJarMain true sampleAnalyses).finalModules.Nodup
    ∧ (analyzeJarMain true sampleAnalyses).finalModules.Pairwise (fun a b => strLe a b = true)
    ∧ (analyzeJarMain true sampleAnalyses).serialized =
        jsJoin "," (analyzeJarMain true sampleAnalyses).finalModules
    ∧ (analyzeJarMain true sampleAnalyses).jarResults =
        sampleAnalyses.map (fun a => (a.jar, jarRecorded a, jarSuccess a)) :=
  combined_moduleSet_is_union_of_successful sampleAnalyses (by decide)

/-- C3: when no jdeps-capable JDK is found, or every per-artifact analysis fails,
the module list written out is exactly the built-in `DEFAULT_MODULES`, verbatim
and in its defined order. -/
theorem default_moduleSet_on_total_failure (jdkFound : Bool) (analyses : List JarAnalysis)
    (h : jdkFound = false ∨ ∀ a ∈ analyses, jarSuccess a = false) :
    (analyzeJarMain jdkFound analyses).finalModules = DEFAULT_MODULES
    ∧ (analyzeJarMain jdkFound analyses).serialized =
        "java.base,java.desktop,java.xml,java.logging,java.naming,java.sql,java.management,jdk.unsupported" := by
  have hempty : (if jdkFound then analyses.foldl analyzeStep ([], []) else ([], [])).1.length = 0 := by
    rcases h with h | h
    · rw [h]
      simp
    · cases jdkFound with
      | false => simp
      | true =>
        simp only [if_true]
        rw [allModules_nil_of_all_fail analyses ([], []) h]
        rfl
  constructor
  · simp only [analyzeJarMain]
    rw [if_neg (by rw [hempty]; exact Nat.lt_irrefl 0)]
  · simp only [analyzeJarMain]
    rw [if_neg (by rw [hempty]; exact Nat.lt_irrefl 0)]
    decide

/-- Witness for C3: a run where no JDK was located. -/
theorem default_moduleSet_on_total_failure_witness :
    (analyzeJarMain false [{ jar := "app.jar", result := none }]).finalModules = DEFAULT_MODULES
    ∧ (analyzeJarMain false [{ jar := "app.jar", result := none }]).serialized =
        "java.base,java.desktop,java.xml,java.logging,java.naming,java.sql,java.management,jdk.unsupported" :=
  default_moduleSet_on_total_failure false [{ jar := "app.jar", result := none }] (Or.inl rfl)

/-! ## Module-source resolution (`build-jre-all-platforms.js`, lines 50-111)

The selection runs at module load, before `const colors` (line 105) is
initialized.  Every `console.log` announcing a selected source interpolates
`colors.blue`, which at that point is a temporal-dead-zone access and throws
`ReferenceError`:

* in the auto-file block (line 76) and the `custom-modules.txt` block (line 90)
  the throw happens inside `try { ... } catch (error) { /* ignore */ }` and
  *after* the `MODULES` assignment, so the assignment survives and the log line
  is never printed — modelled by keeping the assignment and recording no log;
* in the environment-variable block (line 101) there is no surrounding
  `try`, so the whole script crashes during module load — modelled as
  `Except.error`.

File contents are passed in as oracle values (a file present in `cwdFiles` is
readable; an unreadable file would hit the same ignore-`catch` and leave the
default in place). -/

/-- A file in the working directory: name, mtime (for the auto-file sort) and
content. -/
structure FileInfo where
  name : String
  mtime : Nat
  content : String
deriving DecidableEq, Repr

/-- Truthiness of `process.env.MODULES` in JS: unset and the empty string are
falsy. -/
def envTruthy : Option String → Bool
  | some s => !(s == "")
  | none => false

/-- Stable insertion for the `(a, b) => statsB.mtimeMs - statsA.mtimeMs`
comparator (descending mtime, ties keep directory order). -/
def insertByMtime (x : FileInfo) : List FileInfo → List FileInfo
  | [] => [x]
  | y :: ys => if y.mtime ≤ x.mtime then x :: y :: ys else y :: insertByMtime x ys

/-- `Array.prototype.sort` with the descending-mtime comparator (stable). -/
def sortByMtimeDesc : List FileInfo → List FileInfo
  | [] => []
  | x :: xs => insertByMtime x (sortByMtimeDesc xs)

/-- `DEFAULT_MODULES` of `build-jre-all-platforms.js` (line 53), already a
comma-joined string in the source. -/
def DEFAULT_MODULES_STR : String :=
  "java.base,java.desktop,java.xml,java.logging,java.naming,java.sql,java.management,jdk.unsupported"

/-- Outcome of the module-load selection: the final `MODULES` and
`modulesSource` variables, plus every selection log line actually printed. -/
structure ModulesChoice where
  MODULES : String
  modulesSource : String
  selectionLogs : List String
deriving DecidableEq, Repr

/-- Lines 50-102 of `build-jre-all-platforms.js`: the sequential reassignment of
`MODULES` (auto-file block, then `custom-modules.txt` block, then environment
override), including the `ReferenceError` behaviour described above. -/
def resolveModules (envMODULES : Option String) (cwdFiles : List FileInfo) :
    Except String ModulesChoice :=
  let autoModuleFiles :=
    sortByMtimeDesc (cwdFiles.filter (fun f => jsEndsWith f.name "-modules.txt"))
  let st1 : String × String :=
    if 0 < autoModuleFiles.length ∧ ¬ envTruthy envMODULES = true then
      match autoModuleFiles.head? with
      | some latest =>
        let customModules := jsTrim latest.content
        if customModules ≠ "" then (customModules, latest.name)
        else (DEFAULT_MODULES_STR, "default")
      | none => (DEFAULT_MODULES_STR, "default")
    else (DEFAULT_MODULES_STR, "default")
  let st2 : String × String :=
    if (cwdFiles.any (fun f => f.name == "custom-modules.txt")) = true
        ∧ ¬ envTruthy envMODULES = true then
      match cwdFiles.find? (fun f => f.name == "custom-modules.txt") with
      | some f =>
        let customModules := jsTrim f.content
        if customModules ≠ "" then (customModules, "custom-modules.txt") else st1
      | none => st1
    else st1
  if envTruthy envMODULES then
    Except.error "ReferenceError: Cannot access colors before initialization"
  else
    Except.ok { MODULES := st2.1, modulesSource := st2.2, selectionLogs := [] }

/-- Working directory used by the C2 run: a manual override file and one
auto-generated analysis file are both present. -/
def sampleCwd : List FileInfo :=
  [{ name := "custom-modules.txt", mtime := 5, content := "java.base,java.sql" },
   { name := "app-modules.txt", mtime := 9, content := "java.base,java.xml" }]

/-- C2 (code bug): with the `MODULES` environment variable set, module
initialization throws (the selection log reads `colors` before its
declaration), so no module-list source is selected at all; and when a file
source is selected (environment unset), the promised selection log is swallowed
by the ignore-`catch`, so nothing is ever logged. -/
theorem modules_env_override_crashes :
    resolveModules (some "java.base,java.xml") sampleCwd =
      Except.error "ReferenceError: Cannot access colors before initialization"
    ∧ resolveModules none sampleCwd =
        Except.ok { MODULES := "java.base,java.sql",
                    modulesSource := "custom-modules.txt", selectionLogs := [] } := by
  constructor
  · rfl
  · rfl

/-! ## Runtime linking (`build-jre-all-platforms.js`, `buildJre`, lines 231-296)

The external jlink invocation is passed in as an oracle (`JlinkTool`) describing
what `spawnSync` reported and what the tool left on disk. -/

/-- Which of the three candidate jlink locations exist inside the JDK directory
(`getJlinkPath`, lines 172-186). -/
structure JdkDir where
  binJlink : Bool
  binJlinkExe : Bool
  contentsHomeBinJlink : Bool
deriving DecidableEq, Repr

/-- `getJlinkPath`: first existing candidate path, in source order. -/
def getJlinkPath (j : JdkDir) : Option String :=
  if j.binJlink then some "bin/jlink"
  else if j.binJlinkExe then some "bin/jlink.exe"
  else if j.contentsHomeBinJlink then some "Contents/Home/bin/jlink"
  else none

/-- Filesystem state relevant to one `buildJre` call: the JDK directory and the
destination image directory (`outputPath`), including whether an existing image
contains the platform entry-point binary `bin/java` (never read by the code). -/
structure LinkState where
  jdk : JdkDir
  outputExists : Bool
  outputHasEntryBinary : Bool
deriving DecidableEq, Repr

/-- Oracle for one `spawnSync(jlinkCmd, args)` call: the `error` / `status`
fields of the result, and what the tool wrote at `outputPath`. -/
structure JlinkTool where
  execError : Bool
  exitStatus : Int
  createsOutput : Bool
  producedHasEntryBinary : Bool
deriving DecidableEq, Repr

/-- Observable outcome of one `buildJre` call. -/
structure LinkResult where
  success : Bool
  ranJlink : Bool
  removedExisting : Bool
  outputExistsAfter : Bool
  outputHasEntryBinaryAfter : Bool
deriving DecidableEq, Repr

/-- `buildJre` (lines 231-296): locate jlink, unconditionally remove any
existing output directory, run the tool, and report success when `spawnSync`
reported no error, exit status 0, and the output directory exists.  No check of
any file inside the produced image is performed. -/
def buildJre (s : LinkState) (tool : JlinkTool) : LinkResult :=
  match getJlinkPath s.jdk with
  | none =>
    { success := false, ranJlink := false, removedExisting := false
      outputExistsAfter := s.outputExists
      outputHasEntryBinaryAfter := s.outputHasEntryBinary }
  | some _ =>
    let removed := s.outputExists
    let after := tool.createsOutput
    let afterBin := tool.createsOutput && tool.producedHasEntryBinary
    if tool.execError then
      { success := false, ranJlink := true, removedExisting := removed
        outputExistsAfter := after, outputHasEntryBinaryAfter := afterBin }
    else if tool.exitStatus ≠ 0 then
      { success := false, ranJlink := true, removedExisting := removed
        outputExistsAfter := after, outputHasEntryBinaryAfter := afterBin }
    else if !tool.createsOutput then
      { success := false, ranJlink := true, removedExisting := removed
        outputExistsAfter := after, outputHasEntryBinaryAfter := afterBin }
    else
      { success := true, ranJlink := true, removedExisting := removed
        outputExistsAfter := after, outputHasEntryBinaryAfter := afterBin }

/-- The destination state a `buildJre` call leaves behind, fed into a repeat
invocation. -/
def stateAfter (s : LinkState) (r : LinkResult) : LinkState :=
  { jdk := s.jdk, outputExists := r.outputExistsAfter
    outputHasEntryBinary := r.outputHasEntryBinaryAfter }

/-- A JDK whose `bin/jlink` exists. -/
def sampleJdk : JdkDir :=
  { binJlink := true, binJlinkExe := false, contentsHomeBinJlink := false }

/-- A well-behaved jlink: exit 0, image produced, entry-point binary present. -/
def goodJlink : JlinkTool :=
  { execError := false, exitStatus := 0, createsOutput := true
    producedHasEntryBinary := true }

/-- C4 counterexample: a first `buildJre` call leaves a valid cached image
(entry-point binary present), yet the immediately repeated call still runs the
external jlink tool — after first removing the cached image — instead of
skipping. -/
theorem link_step_rebuild_counterexample :
    (buildJre { jdk := sampleJdk, outputExists := false, outputHasEntryBinary := false }
        goodJlink).outputExistsAfter = true
    ∧ (buildJre { jdk := sampleJdk, outputExists := false, outputHasEntryBinary := false }
        goodJlink).outputHasEntryBinaryAfter = true
    ∧ (buildJre (stateAfter { jdk := sampleJdk, outputExists := false, outputHasEntryBinary := false }
        (buildJre { jdk := sampleJdk, outputExists := false, outputHasEntryBinary := false }
          goodJlink)) goodJlink).ranJlink = true
    ∧ (buildJre (stateAfter { jdk := sampleJdk, outputExists := false, outputHasEntryBinary := false }
        (buildJre { jdk := sampleJdk, outputExists := false, outputHasEntryBinary := false }
          goodJlink)) goodJlink).removedExisting = true := by
  refine ⟨rfl, rfl, rfl, rfl⟩

/-- C4 amended: the link step never caches.  Whenever jlink is found, every
`buildJre` invocation runs the external tool, first removing whatever image —
valid or not — already sits at the destination. -/
theorem link_step_always_reruns (s : LinkState) (tool : JlinkTool)
    (h : (getJlinkPath s.jdk).isSome = true) :
    (buildJre s tool).ranJlink = true
    ∧ (buildJre s tool).removedExisting = s.outputExists := by
  unfold buildJre
  match hg : getJlinkPath s.jdk with
  | none => rw [hg] at h; exact absurd h (by simp)
  | some p =>
    by_cases he : tool.execError = true
    · simp [he]
    · by_cases hs : tool.exitStatus = 0
      · by_cases hc : tool.createsOutput = true
        · simp [he, hs, hc]
        · simp [he, hs, hc]
      · simp [he, hs]

/-- Witness for the amended C4. -/
theorem link_step_always_reruns_witness :
    (buildJre { jdk := sampleJdk, outputExists := true, outputHasEntryBinary := true }
        goodJlink).ranJlink = true
    ∧ (buildJre { jdk := sampleJdk, outputExists := true, outputHasEntryBinary := true }
        goodJlink).removedExisting =
      ({ jdk := sampleJdk, outputExists := true, outputHasEntryBinary := true } : LinkState).outputExists :=
  link_step_always_reruns
    { jdk := sampleJdk, outputExists := true, outputHasEntryBinary := true } goodJlink (by decide)

/-- C5 counterexample: jlink exits successfully and creates the output
directory, but the produced image lacks the entry-point binary; `buildJre`
still reports success. -/
theorem link_step_missing_entry_binary_counterexample :
    (buildJre { jdk := sampleJdk, outputExists := false, outputHasEntryBinary := false }
        { execError := false, exitStatus := 0, createsOutput := true
          producedHasEntryBinary := false }).success = true
    ∧ (buildJre { jdk := sampleJdk, outputExists := false, outputHasEntryBinary := false }
        { execError := false, exitStatus := 0, createsOutput := true
          producedHasEntryBinary := false }).outputHasEntryBinaryAfter = false := by
  refine ⟨rfl, rfl⟩

/-- C5 amended: after the tool runs, `buildJre` checks only that the output
directory exists.  Success is exactly "no spawn error, exit status 0, output
directory present", independent of whether the entry-point binary is inside. -/
theorem link_step_checks_directory_only (s : LinkState) (tool : JlinkTool)
    (h : (getJlinkPath s.jdk).isSome = true) :
    (buildJre s tool).success =
      (!tool.execError && (tool.exitStatus == 0) && tool.createsOutput) := by
  unfold buildJre
  match hg : getJlinkPath s.jdk with
  | none => rw [hg] at h; exact absurd h (by simp)
  | some p =>
    by_cases he : tool.execError = true
    · simp [he]
    · by_cases hs : tool.exitStatus = 0
      · by_cases hc : tool.createsOutput = true
        · simp [he, hs, hc]
        · simp [he, hs, hc]
      · simp [he, hs, decide_eq_true_eq]

/-- Witness for the amended C5. -/
theorem link_step_checks_directory_only_witness :
    (buildJre { jdk := sampleJdk, outputExists := false, outputHasEntryBinary := false }
        goodJlink).success =
      (!goodJlink.execError && (goodJlink.exitStatus == 0) && goodJlink.createsOutput) :=
  link_step_checks_directory_only
    { jdk := sampleJdk, outputExists := false, outputHasEntryBinary := false } goodJlink (by decide)

/-! ## Archive fetching (`download-jdks.js`)

`downloadFile` (lines 586-642) is driven by the chain of HTTP responses the
server produces for the successive `get` calls (one entry per request: the
original URL and each redirect target), plus how the piped body stream ends. -/

/-- What one `protocol.get` call produced: either the request errored without a
response, or a response with the given status code arrived. -/
inductive HttpEvent where
  | noResponse
  | code (statusCode : Nat)
deriving DecidableEq, Repr

/-- How piping a 200 response body into the destination write stream ends. -/
inductive BodyEnd where
  | finish
  | fileError
deriving DecidableEq, Repr

/-- Settled state of the `downloadFile` promise. -/
inductive DlOutcome where
  | resolved
  | rejected (message : String)
deriving DecidableEq, Repr

/-- `downloadFile`: follow 301/302/307 redirects (unlinking and re-creating the
destination each hop), reject on a request error or any other non-200 status,
stream the body on 200, reject on a write-stream error.  Returns the settled
outcome (`none` when no event ever arrives and the promise stays pending) and
whether a file is left at the destination path. -/
def downloadFileRun : List HttpEvent → BodyEnd → Option DlOutcome × Bool
  | [], _ => (none, true)
  | .noResponse :: _, _ => (some (.rejected "request error"), false)
  | .code c :: rest, body =>
    if c = 301 ∨ c = 302 ∨ c = 307 then
      downloadFileRun rest body
    else if c ≠ 200 then
      (some (.rejected ("HTTP " ++ toString c)), false)
    else
      match body with
      | .finish => (some .resolved, true)
      | .fileError => (some (.rejected "file error"), false)

/-- C7: whenever `downloadFile` settles with an error — request error, write
error, or a terminal non-200 status after any chain of 301/302/307 redirects —
the partially written destination file has been removed: no partial file
remains. -/
theorem download_error_leaves_no_partial_file (events : List HttpEvent)
    (body : BodyEnd) (msg : String)
    (h : (downloadFileRun events body).1 = some (.rejected msg)) :
    (downloadFileRun events body).2 = false := by
  induction events with
  | nil => simp [downloadFileRun] at h
  | cons e rest ih =>
    cases e with
    | noResponse => rfl
    | code c =>
      simp only [downloadFileRun] at h ⊢
      by_cases hr : c = 301 ∨ c = 302 ∨ c = 307
      · rw [if_pos hr] at h ⊢
        exact ih h
      · by_cases h200 : c = 200
        · subst h200
          rw [if_neg hr, if_neg (by simp)] at h ⊢
          cases body with
          | finish => simp at h
          | fileError => rfl
        · rw [if_neg hr, if_pos h200]

/-- Witness for C7: a 302 redirect followed by a 404. -/
theorem download_error_leaves_no_partial_file_witness :
    (downloadFileRun [.code 302, .code 404] .finish).1 = some (.rejected "HTTP 404")
    ∧ (downloadFileRun [.code 302, .code 404] .finish).2 = false :=
  ⟨by decide, download_error_leaves_no_partial_file [.code 302, .code 404] .finish "HTTP 404" (by decide)⟩

/-! ## Per-platform fetch caching (`downloadAndExtractPlatform`, lines 690-798) -/

/-- Filesystem state consulted before any network traffic: validity of the
final extracted directory, and presence/size of the archive in the download
cache. -/
structure FetchState where
  finalDirExists : Bool
  finalDirHasJlink : Bool
  archiveExists : Bool
  archiveSize : Nat
deriving DecidableEq, Repr

/-- The download decision of `downloadAndExtractPlatform`: `downloadFile` is
invoked only when the final directory is not already valid and the cached
archive is absent or smaller than the 1 MiB plausibility threshold
(line 717). -/
def downloadDecision (s : FetchState) : Bool :=
  if s.finalDirExists && s.finalDirHasJlink then false
  else if !s.archiveExists || s.archiveSize < 1024 * 1024 then true
  else false

/-- C6: with the destination archive already present at a plausible size
(at least 1 MiB), the fetch step performs no download at all — so re-running it
over an already-downloaded archive makes zero network requests. -/
theorem fetch_skips_when_archive_cached (s : FetchState)
    (hex : s.archiveExists = true) (hsz : 1024 * 1024 ≤ s.archiveSize) :
    downloadDecision s = false := by
  unfold downloadDecision
  by_cases hv : (s.finalDirExists && s.finalDirHasJlink) = true
  · rw [if_pos hv]
  · rw [if_neg hv]
    have hc : (!s.archiveExists || decide (s.archiveSize < 1024 * 1024)) = false := by
      simp [hex]
      omega
    simp [hc]

/-- Witness for C6. -/
theorem fetch_skips_when_archive_cached_witness :
    downloadDecision
      { finalDirExists := false, finalDirHasJlink := false
        archiveExists := true, archiveSize := 200000000 } = false :=
  fetch_skips_when_archive_cached
    { finalDirExists := false, finalDirHasJlink := false
      archiveExists := true, archiveSize := 200000000 } (by decide) (by decide)

/-! ## All-platforms batches

`build-jre-all-platforms.js` `main` (lines 463-511) and `create-portable.js`
`main` (lines 440-492) share the same batch shape: each platform function is
called inside `try`, a thrown error is converted to `false`, the per-platform
booleans are collected into `results`, a summary is printed, and the process
exits with `successCount === totalCount ? 0 : 1`.

`download-jdks.js` `main` (lines 801-815) is different: it awaits
`downloadAndExtractPlatform` for every platform in turn — that function
swallows its own failures (a download failure is logged and `return`ed at
lines 722-724, an extraction failure is caught and cleaned up at lines
792-798) — but no per-platform result is collected, no failure summary is
produced, and the process ends with the default exit status 0 regardless of
how many platforms failed. -/

/-- Per-platform booleans collected by the builder/packager batches; a thrown
error (`Except.error`) is caught and recorded as `false`. -/
def batchResults (outcomes : List (String × Except String Bool)) :
    List (String × Bool) :=
  outcomes.map (fun p => (p.1, match p.2 with | .ok b => b | .error _ => false))

/-- `process.exit(successCount === totalCount ? 0 : 1)`. -/
def batchExit (outcomes : List (String × Except String Bool)) : Nat :=
  if ((batchResults outcomes).filter (fun r => r.2)).length
      = (batchResults outcomes).length then 0 else 1

/-- Terminal state of `downloadAndExtractPlatform` for one platform. -/
inductive FetchOutcome where
  | alreadyValid
  | ready
  | downloadFailed
  | extractFailed
deriving DecidableEq, Repr

/-- Whether a platform's fetch counts as failed. -/
def fetchFailed : FetchOutcome → Bool
  | .downloadFailed => true
  | .extractFailed => true
  | _ => false

/-- Oracle for one platform of the download batch: cache state, HTTP behaviour
and whether extraction(+ jdk/jlink verification) succeeds. -/
structure PlatformRun where
  fsState : FetchState
  httpEvents : List HttpEvent
  bodyEnd : BodyEnd
  extractOk : Bool
deriving DecidableEq, Repr

/-- `downloadAndExtractPlatform` at the outcome level: a valid cached directory
returns early; otherwise the archive is downloaded if the cache check demands
it, a failed download ends the platform (logged, `return`), and extraction
either completes or fails (caught, cleaned up).  Either way the function
returns normally. -/
def downloadAndExtractPlatform (r : PlatformRun) : FetchOutcome :=
  if r.fsState.finalDirExists && r.fsState.finalDirHasJlink then .alreadyValid
  else if downloadDecision r.fsState then
    match (downloadFileRun r.httpEvents r.bodyEnd).1 with
    | some .resolved => if r.extractOk then .ready else .extractFailed
    | _ => .downloadFailed
  else if r.extractOk then .ready else .extractFailed

/-- `main` of `download-jdks.js`: every platform is processed in order; nothing
is recorded and the exit status is always 0. -/
def downloadJdksMain (runs : List PlatformRun) : List FetchOutcome × Nat :=
  (runs.map downloadAndExtractPlatform, 0)

/-- A platform run whose download gets a terminal 404: nothing cached, archive
absent. -/
def failingRun : PlatformRun :=
  { fsState := { finalDirExists := false, finalDirHasJlink := false
                 archiveExists := false, archiveSize := 0 }
    httpEvents := [.code 404], bodyEnd := .finish, extractOk := true }

/-- A platform run that succeeds end to end. -/
def succeedingRun : PlatformRun :=
  { fsState := { finalDirExists := false, finalDirHasJlink := false
                 archiveExists := false, archiveSize := 0 }
    httpEvents := [.code 200], bodyEnd := .finish, extractOk := true }

/-- C8 counterexample: in the JDK download batch, the first platform's download
fails with a 404 while the second platform still runs and succeeds — yet the
process exit status is 0, not non-zero, and no per-platform boolean is
recorded.  This refutes the claim that every all-platforms batch exits non-zero
exactly when at least one platform failed. -/
theorem download_batch_ignores_failures_counterexample :
    downloadAndExtractPlatform failingRun = .downloadFailed
    ∧ fetchFailed .downloadFailed = true
    ∧ (downloadJdksMain [failingRun, succeedingRun]).1 = [.downloadFailed, .ready]
    ∧ (downloadJdksMain [failingRun, succeedingRun]).2 = 0 := by
  refine ⟨rfl, rfl, rfl, rfl⟩

/-- C8 amended: in the JRE-builder and package-assembler batches every platform
is attempted, a thrown failure only marks that platform `false`, and the exit
status is non-zero exactly when some platform failed; the JDK download batch
also attempts every platform, but records no per-platform result and always
exits 0. -/
theorem batch_failure_isolation (outcomes : List (String × Except String Bool))
    (runs : List PlatformRun) :
    (batchResults outcomes).map Prod.fst = outcomes.map Prod.fst
    ∧ (batchExit outcomes ≠ 0 ↔ ∃ r ∈ batchResults outcomes, r.2 = false)
    ∧ (downloadJdksMain runs).1.length = runs.length
    ∧ (downloadJdksMain runs).2 = 0 := by
  refine ⟨?_, ?_, by simp [downloadJdksMain], rfl⟩
  · simp [batchResults]
  · unfold batchExit
    by_cases h : ((batchResults outcomes).filter (fun r => r.2)).length
        = (batchResults outcomes).length
    · rw [if_pos h]
      simp only [ne_eq, not_true_eq_false, false_iff]
      rw [List.filter_length_eq_length] at h
      rintro ⟨r, hr, hrf⟩
      rw [h r hr] at hrf
      exact absurd hrf (by simp)
    · rw [if_neg h]
      simp only [ne_eq, one_ne_zero, not_false_eq_true, true_iff]
      by_contra hno
      push_neg at hno
      refine h (List.filter_length_eq_length.mpr ?_)
      intro r hr
      cases hb : r.2 with
      | true => rfl
      | false => exact absurd hb (hno r hr)

/-- A two-platform batch outcome with one throw for the amended C8. -/
def sampleOutcomes : List (String × Except String Bool) :=
  [("Windows x64", .ok true), ("Linux x64", .error "jlink failed")]

/-- Witness for the amended C8 (no hypotheses beyond the quantified inputs;
instantiated at a batch with one failure). -/
theorem batch_failure_isolation_witness :
    (batchResults sampleOutcomes).map Prod.fst = sampleOutcomes.map Prod.fst
    ∧ (batchExit sampleOutcomes ≠ 0 ↔ ∃ r ∈ batchResults sampleOutcomes, r.2 = false)
    ∧ (downloadJdksMain [failingRun]).1.length = [failingRun].length
    ∧ (downloadJdksMain [failingRun]).2 = 0 :=
  batch_failure_isolation sampleOutcomes [failingRun]

/-! ## Platform target lists (C9) -/

/-- Keys of the `builders` table in `build-jre-all-platforms.js` (lines
441-448). -/
def builderKeys : List String :=
  ["windows-x64", "windows-arm64", "macos-x64", "macos-arm64",
   "linux-x64", "linux-arm64"]

/-- Keys of the `PLATFORMS` configuration in `download-jdks.js` (lines
508-571). -/
def downloadPlatformKeys : List String :=
  ["windows-x64", "windows-arm64", "macos-x64", "macos-arm64",
   "linux-x64", "linux-arm64"]

/-- The `platforms` array of `create-portable.js` (lines 416-422):
`[platform, arch, jreName]` triples. -/
def portablePlatforms : List (String × String × String) :=
  [("windows", "x64", "jre-win-x64"),
   ("macos", "x64", "jre-mac-x64"),
   ("macos", "arm64", "jre-mac-arm64"),
   ("linux", "x64", "jre-linux-x64"),
   ("linux", "arm64", "jre-linux-arm64")]

/-- Platform-arch targets the package assembler iterates over. -/
def portableTargets : List String :=
  portablePlatforms.map (fun p => p.1 ++ "-" ++ p.2.1)

/-- C9 (code bug): the downloader and the JRE builder iterate the six fixed
targets, but the package assembler's all-platforms run iterates only five —
`windows-arm64` is missing from `create-portable.js`, although the repository
README documents a `windows-arm64` portable archive among the six outputs. -/
theorem package_assembler_omits_windows_arm64 :
    builderKeys.length = 6
    ∧ downloadPlatformKeys = builderKeys
    ∧ portableTargets.length = 5
    ∧ ¬ ("windows-arm64" ∈ portableTargets)
    ∧ "windows-arm64" ∈ builderKeys := by
  refine ⟨rfl, rfl, rfl, by decide, by decide⟩

/-! ## JDK version auto-detection (`build-jre-all-platforms.js`, lines 16-50) -/

/-- One entry of `fs.readdirSync(JDK_DIR)`. -/
structure DirEntry where
  name : String
  isDirectory : Bool
deriving DecidableEq, Repr

/-- The `/^jdk-(\d+)/` capture on a directory name: at least one digit right
after the `jdk-` prefix. -/
def jdkVersionCapture (name : String) : Option String :=
  if jsStartsWith name "jdk-" then
    let ds := (name.data.drop 4).takeWhile Char.isDigit
    if 0 < ds.length then some (String.mk ds) else none
  else none

/-- Stable insertion for the `(a, b) => parseInt(b) - parseInt(a)` comparator
(numerically descending). -/
def insertByVersion (x : String) : List String → List String
  | [] => [x]
  | y :: ys =>
    if parseIntDigits y ≤ parseIntDigits x then x :: y :: ys
    else y :: insertByVersion x ys

/-- `Array.prototype.sort` with the numerically-descending comparator. -/
def sortByVersionDesc : List String → List String
  | [] => []
  | x :: xs => insertByVersion x (sortByVersionDesc xs)

/-- The `versions` set accumulated from the `jdk-` directories (a JS `Set`,
modelled as a duplicate-free insertion-ordered list). -/
def detectVersions (entries : List DirEntry) : List String :=
  (entries.filter (fun e => e.isDirectory && jsStartsWith e.name "jdk-")).foldl
    (fun acc d =>
      match jdkVersionCapture d.name with
      | some v => jsSetAdd acc v
      | none => acc) []

/-- `detectAvailableJDK` (lines 17-48): `null` when the downloads directory is
missing, when no `jdk-` directory exists, or when no directory name matches
`/^jdk-(\d+)/`; otherwise the head of the numerically-descending sort of the
captured versions. -/
def detectAvailableJDK (jdkDirExists : Bool) (entries : List DirEntry) : Option String :=
  if !jdkDirExists then none
  else if ((entries.filter (fun e => e.isDirectory && jsStartsWith e.name "jdk-")).length = 0) then
    none
  else if (detectVersions entries).length = 0 then none
  else (sortByVersionDesc (detectVersions entries)).head?

/-- JavaScript `||` on a possibly-absent string: the empty string is falsy. -/
def jsOrElse (a : Option String) (b : String) : String :=
  match a with
  | some s => if s = "" then b else s
  | none => b

/-- `const JDK_VERSION = process.env.JDK_VERSION || detectAvailableJDK() || '21'`
(line 50). -/
def jdkVersionSelect (envJdkVersion : Option String) (jdkDirExists : Bool)
    (entries : List DirEntry) : String :=
  jsOrElse envJdkVersion (jsOrElse (detectAvailableJDK jdkDirExists entries) "21")

/-- The version captures of all `jdk-<N>-*` directory entries, in order. -/
def versionCandidates (entries : List DirEntry) : List String :=
  entries.filterMap (fun e => if e.isDirectory then jdkVersionCapture e.name else none)

theorem mem_insertByVersion (x y : String) (l : List String) :
    y ∈ insertByVersion x l ↔ y = x ∨ y ∈ l := by
  induction l with
  | nil => simp [insertByVersion]
  | cons z zs ih =>
    by_cases h : parseIntDigits z ≤ parseIntDigits x
    · simp [insertByVersion, h]
    · have he : insertByVersion x (z :: zs) = z :: insertByVersion x zs := by
        simp [insertByVersion, h]
      rw [he]
      simp [ih]
      tauto

theorem mem_sortByVersionDesc (y : String) (l : List String) :
    y ∈ sortByVersionDesc l ↔ y ∈ l := by
  induction l with
  | nil => simp [sortByVersionDesc]
  | cons x xs ih =>
    rw [sortByVersionDesc, mem_insertByVersion, ih, List.mem_cons]

/-- The head of the numerically-descending sort dominates every element. -/
theorem sortByVersionDesc_head_max (l : List String) (v : String)
    (h : (sortByVersionDesc l).head? = some v) :
    v ∈ l ∧ ∀ w ∈ l, parseIntDigits w ≤ parseIntDigits v := by
  have key : ∀ m : List String, ∀ u, (sortByVersionDesc m).head? = some u →
      u ∈ m ∧ ∀ w ∈ m, parseIntDigits w ≤ parseIntDigits u := by
    intro m
    induction m with
    | nil => intro u hu; simp [sortByVersionDesc] at hu
    | cons x xs ih =>
      intro u hu
      rw [sortByVersionDesc] at hu
      rcases hs : sortByVersionDesc xs with _ | ⟨z, zs⟩
      · rw [hs] at hu
        simp [insertByVersion] at hu
        subst hu
        constructor
        · exact List.mem_cons_self x xs
        · intro w hw
          rcases List.mem_cons.mp hw with rfl | hw
          · exact Nat.le_refl _
          · have : w ∈ sortByVersionDesc xs := (mem_sortByVersionDesc w xs).mpr hw
            rw [hs] at this
            exact absurd this (List.not_mem_nil w)
      · rw [hs] at hu
        by_cases hcmp : parseIntDigits z ≤ parseIntDigits x
        · have he : insertByVersion x (z :: zs) = x :: z :: zs := by
            simp [insertByVersion, hcmp]
          rw [he] at hu
          simp at hu
          subst hu
          refine ⟨List.mem_cons_self x xs, ?_⟩
          intro w hw
          rcases List.mem_cons.mp hw with rfl | hw
          · exact Nat.le_refl _
          · obtain ⟨hz_mem, hz_max⟩ := ih z (by rw [hs]; rfl)
            exact Nat.le_trans (hz_max w hw) hcmp
        · have he : insertByVersion x (z :: zs) = z :: insertByVersion x zs := by
            simp [insertByVersion, hcmp]
          rw [he] at hu
          simp at hu
          subst hu
          obtain ⟨hz_mem, hz_max⟩ := ih z (by rw [hs]; rfl)
          refine ⟨List.mem_cons_of_mem x hz_mem, ?_⟩
          intro w hw
          rcases List.mem_cons.mp hw with rfl | hw
          · exact Nat.le_of_lt (Nat.lt_of_not_le hcmp)
          · exact hz_max w hw
  exact key l v h

theorem mem_jsSetAdd (acc : List String) (v x : String) :
    x ∈ jsSetAdd acc v ↔ x ∈ acc ∨ x = v := by
  unfold jsSetAdd
  by_cases hv : v ∈ acc
  · rw [if_pos hv]
    constructor
    · exact Or.inl
    · rintro (h | rfl)
      · exact h
      · exact hv
  · rw [if_neg hv]
    simp

theorem jdkVersionCapture_startsWith (name v : String)
    (h : jdkVersionCapture name = some v) : jsStartsWith name "jdk-" = true := by
  unfold jdkVersionCapture at h
  by_cases hs : jsStartsWith name "jdk-" = true
  · exact hs
  · rw [if_neg hs] at h
    exact absurd h (by simp)

theorem jdkVersionCapture_ne_empty (name v : String)
    (h : jdkVersionCapture name = some v) : v ≠ "" := by
  unfold jdkVersionCapture at h
  by_cases hs : jsStartsWith name "jdk-" = true
  · rw [if_pos hs] at h
    by_cases hd : 0 < ((name.data.drop 4).takeWhile Char.isDigit).length
    · rw [if_pos hd] at h
      have hv : v = String.mk ((name.data.drop 4).takeWhile Char.isDigit) :=
        (Option.some_inj.mp h).symm
      intro hempty
      rw [hv] at hempty
      have : ((name.data.drop 4).takeWhile Char.isDigit) = [] := by
        have := congrArg String.data hempty
        simpa using this
      rw [this] at hd
      exact absurd hd (by simp)
    · rw [if_neg hd] at h
      exact absurd h (by simp)
  · rw [if_neg hs] at h
    exact absurd h (by simp)

theorem mem_foldl_capture (ds : List DirEntry) (acc : List String) (x : String) :
    x ∈ ds.foldl
        (fun acc d =>
          match jdkVersionCapture d.name with
          | some v => jsSetAdd acc v
          | none => acc) acc ↔
      x ∈ acc ∨ ∃ d ∈ ds, jdkVersionCapture d.name = some x := by
  induction ds generalizing acc with
  | nil => simp
  | cons d ds ih =>
    rw [List.foldl_cons, ih]
    cases hc : jdkVersionCapture d.name with
    | none =>
      simp only []
      constructor
      · rintro (h | ⟨b, hb, hbc⟩)
        · exact Or.inl h
        · exact Or.inr ⟨b, List.mem_cons_of_mem d hb, hbc⟩
      · rintro (h | ⟨b, hb, hbc⟩)
        · exact Or.inl h
        · rcases List.mem_cons.mp hb with rfl | hb
          · rw [hc] at hbc; exact absurd hbc (by simp)
          · exact Or.inr ⟨b, hb, hbc⟩
    | some v =>
      simp only []
      rw [mem_jsSetAdd]
      constructor
      · rintro ((h | rfl) | ⟨b, hb, hbc⟩)
        · exact Or.inl h
        · exact Or.inr ⟨d, List.mem_cons_self d ds, hc⟩
        · exact Or.inr ⟨b, List.mem_cons_of_mem d hb, hbc⟩
      · rintro (h | ⟨b, hb, hbc⟩)
        · exact Or.inl (Or.inl h)
        · rcases List.mem_cons.mp hb with rfl | hb
          · rw [hc] at hbc
            exact Or.inl (Or.inr (Option.some_inj.mp hbc).symm)
          · exact Or.inr ⟨b, hb, hbc⟩

theorem mem_versionCandidates (entries : List DirEntry) (x : String) :
    x ∈ versionCandidates entries ↔
      ∃ e ∈ entries, e.isDirectory = true ∧ jdkVersionCapture e.name = some x := by
  unfold versionCandidates
  rw [List.mem_filterMap]
  constructor
  · rintro ⟨e, he, hf⟩
    by_cases hd : e.isDirectory = true
    · rw [if_pos hd] at hf
      exact ⟨e, he, hd, hf⟩
    · rw [if_neg hd] at hf
      exact absurd hf (by simp)
  · rintro ⟨e, he, hd, hf⟩
    exact ⟨e, he, by rw [if_pos hd]; exact hf⟩

theorem mem_detectVersions (entries : List DirEntry) (x : String) :
    x ∈ detectVersions entries ↔ x ∈ versionCandidates entries := by
  unfold detectVersions
  rw [mem_foldl_capture, mem_versionCandidates]
  simp only [List.not_mem_nil, false_or, List.mem_filter]
  constructor
  · rintro ⟨d, ⟨hd, hflt⟩, hc⟩
    have hdir : d.isDirectory = true := by
      have h12 := (Bool.and_eq_true _ _).mp hflt
      exact h12.1
    exact ⟨d, hd, hdir, hc⟩
  · rintro ⟨e, he, hd, hc⟩
    refine ⟨e, ⟨he, ?_⟩, hc⟩
    rw [Bool.and_eq_true]
    exact ⟨hd, jdkVersionCapture_startsWith e.name x hc⟩

theorem detect_some_head (entries : List DirEntry) (v : String)
    (h : detectAvailableJDK true entries = some v) :
    (sortByVersionDesc (detectVersions entries)).head? = some v := by
  unfold detectAvailableJDK at h
  rw [if_neg (by simp)] at h
  by_cases h1 : ((entries.filter
      (fun e => e.isDirectory && jsStartsWith e.name "jdk-")).length = 0)
  · rw [if_pos h1] at h
    exact absurd h (by simp)
  · rw [if_neg h1] at h
    by_cases h2 : (detectVersions entries).length = 0
    · rw [if_pos h2] at h
      exact absurd h (by simp)
    · rw [if_neg h2] at h
      exact h

theorem detect_some_mem (entries : List DirEntry) (v : String)
    (h : detectAvailableJDK true entries = some v) :
    v ∈ detectVersions entries :=
  (sortByVersionDesc_head_max (detectVersions entries) v (detect_some_head entries v h)).1

/-- C10: with `JDK_VERSION` unset, the build script selects the numerically
highest version among the extracted `jdk-<N>-*` directories in the downloads
directory (integers, not lexicographic order), and falls back to `"21"` when no
such directory exists (in particular when the downloads directory is missing). -/
theorem jdk_autodetect_numerically_highest (entries : List DirEntry) :
    (match detectAvailableJDK true entries with
     | some v => v ∈ versionCandidates entries
         ∧ ∀ w ∈ versionCandidates entries, parseIntDigits w ≤ parseIntDigits v
     | none => versionCandidates entries = [])
    ∧ jdkVersionSelect none true entries
        = (match detectAvailableJDK true entries with
           | some v => v
           | none => "21")
    ∧ jdkVersionSelect none false entries = "21" := by
  refine ⟨?_, ?_, rfl⟩
  · cases hdet : detectAvailableJDK true entries with
    | some v =>
      obtain ⟨hmem, hmax⟩ :=
        sortByVersionDesc_head_max (detectVersions entries) v
          (detect_some_head entries v hdet)
      refine ⟨(mem_detectVersions entries v).mp hmem, ?_⟩
      intro w hw
      exact hmax w ((mem_detectVersions entries w).mpr hw)
    | none =>
      by_contra hne
      obtain ⟨x, hx⟩ := List.exists_mem_of_ne_nil _ hne
      have hxdv : x ∈ detectVersions entries := (mem_detectVersions entries x).mpr hx
      obtain ⟨e, he, hdir, hcap⟩ := (mem_versionCandidates entries x).mp hx
      have hef : e ∈ entries.filter (fun e => e.isDirectory && jsStartsWith e.name "jdk-") := by
        rw [List.mem_filter]
        refine ⟨he, ?_⟩
        rw [Bool.and_eq_true]
        exact ⟨hdir, jdkVersionCapture_startsWith e.name x hcap⟩
      have h1 : ¬ ((entries.filter
          (fun e => e.isDirectory && jsStartsWith e.name "jdk-")).length = 0) := by
        intro h0
        rw [List.length_eq_zero] at h0
        rw [h0] at hef
        exact List.not_mem_nil e hef
      have h2 : ¬ ((detectVersions entries).length = 0) := by
        intro h0
        rw [List.length_eq_zero] at h0
        rw [h0] at hxdv
        exact List.not_mem_nil x hxdv
      have hsortne : (sortByVersionDesc (detectVersions entries)).head? = none → False := by
        intro hh
        rw [List.head?_eq_none_iff] at hh
        have : x ∈ sortByVersionDesc (detectVersions entries) :=
          (mem_sortByVersionDesc x (detectVersions entries)).mpr hxdv
        rw [hh] at this
        exact List.not_mem_nil x this
      unfold detectAvailableJDK at hdet
      rw [if_neg (by simp), if_neg h1, if_neg h2] at hdet
      exact hsortne hdet
  · cases hdet : detectAvailableJDK true entries with
    | some v =>
      have hvne : v ≠ "" := by
        obtain ⟨e, _, _, hcap⟩ :=
          (mem_versionCandidates entries v).mp
            ((mem_detectVersions entries v).mp (detect_some_mem entries v hdet))
        exact jdkVersionCapture_ne_empty e.name v hcap
      unfold jdkVersionSelect jsOrElse
      rw [hdet]
      simp [hvne]
    | none =>
      unfold jdkVersionSelect jsOrElse
      rw [hdet]

/-- Directory listing used by the C10 witness: versions 9 and 17 present, so
integer comparison must pick 17 (a lexicographic comparison would pick 9). -/
def sampleJdkEntries : List DirEntry :=
  [{ name := "jdk-9-linux-x64", isDirectory := true },
   { name := "jdk-17-windows-x64", isDirectory := true },
   { name := "notes.txt", isDirectory := false }]

/-- Witness for C10 at `sampleJdkEntries`. -/
theorem jdk_autodetect_numerically_highest_witness :
    (match detectAvailableJDK true sampleJdkEntries with
     | some v => v ∈ versionCandidates sampleJdkEntries
         ∧ ∀ w ∈ versionCandidates sampleJdkEntries, parseIntDigits w ≤ parseIntDigits v
     | none => versionCandidates sampleJdkEntries = [])
    ∧ jdkVersionSelect none true sampleJdkEntries
        = (match detectAvailableJDK true sampleJdkEntries with
           | some v => v
           | none => "21")
    ∧ jdkVersionSelect none false sampleJdkEntries = "21" :=
  jdk_autodetect_numerically_highest sampleJdkEntries
